/-
Verification of the core logic of the butterfly-ts client library.

The development shallowly embeds the three pieces of real logic of the
repository:
  * the media-URL derivation engine (src/utils.ts, getMediaUrl);
  * the relationship-resolution utilities (src/utils.ts, getRelated and
    getCategoryChildrenIds);
  * the request dispatch pipeline of the client (URL building, query
    encoding fix-up, response classification, observation hook).
Each definition is translated from the TypeScript source.  Stateful or
effectful fragments (the dispatch pipeline) are embedded as pure
functions over an explicit transport outcome, producing an event trace.
The unbounded recursion of the category traversal is embedded with an
explicit fuel parameter: the TypeScript function terminates on an input
exactly when some fuel bound makes the fueled embedding succeed.
-/
import Mathlib

namespace Butterfly

/-! ## Media model (src/utils.ts) -/

/-- The closed format set of src/utils.ts: MediaFormat. -/
inductive MediaFormat where
  | default
  | source
  | thumb
  | square
  | cover
  | stories
deriving DecidableEq, Repr

/-- The closed extension set of src/utils.ts: MediaExtension. -/
inductive MediaExtension where
  | jpg
  | webp
  | avif
  | png
  | mp4
  | mp3
  | gif
deriving DecidableEq, Repr

/-- VideoDefinition of src/utils.ts. -/
inductive VideoDefinition where
  | hd
  | sd
deriving DecidableEq, Repr

/-- The media type discriminator of types.ts (image | video | audio). -/
inductive MediaType where
  | image
  | video
  | audio
deriving DecidableEq, Repr

/-- String interpolation of a MediaFormat value, as JavaScript renders it. -/
def MediaFormat.str : MediaFormat → String
  | .default => "default"
  | .source => "source"
  | .thumb => "thumb"
  | .square => "square"
  | .cover => "cover"
  | .stories => "stories"

/-- String interpolation of a MediaExtension value. -/
def MediaExtension.str : MediaExtension → String
  | .jpg => "jpg"
  | .webp => "webp"
  | .avif => "avif"
  | .png => "png"
  | .mp4 => "mp4"
  | .mp3 => "mp3"
  | .gif => "gif"

/-- String interpolation of a VideoDefinition value. -/
def VideoDefinition.str : VideoDefinition → String
  | .hd => "hd"
  | .sd => "sd"

/-- String interpolation of a MediaType value. -/
def MediaType.str : MediaType → String
  | .image => "image"
  | .video => "video"
  | .audio => "audio"

/-- The per-format fingerprint mapping of a media resource (types.ts:
fingerprints is keyed by exactly the six formats). -/
structure Fingerprints where
  source : String
  default : String
  thumb : String
  square : String
  cover : String
  stories : String
deriving DecidableEq, Repr

/-- Lookup fingerprints[format]. -/
def Fingerprints.get (f : Fingerprints) : MediaFormat → String
  | .source => f.source
  | .default => f.default
  | .thumb => f.thumb
  | .square => f.square
  | .cover => f.cover
  | .stories => f.stories

/-- The attributes of a media resource that getMediaUrl inspects
(mimetype and the fingerprint mapping). -/
structure MediaAttributes where
  mimetype : String
  fingerprints : Fingerprints
deriving DecidableEq, Repr

/-- A media resource as used by getMediaUrl: id, type discriminator and
attributes. -/
structure Media where
  id : Nat
  type : MediaType
  attributes : MediaAttributes
deriving DecidableEq, Repr

/-- GetMediaUrlOptions of src/utils.ts.  Optional fields are embedded as
Option; the defaults (default for format, "media" for slug) are applied
inside getMediaUrl exactly as the destructuring defaults of the source. -/
structure GetMediaUrlOptions where
  domain : String
  media : Media
  format : Option MediaFormat := none
  width : Option Nat := none
  slug : Option String := none
  ext : Option MediaExtension := none
  definition : Option VideoDefinition := none
deriving DecidableEq, Repr

/-- getMediaUrl of src/utils.ts, lines 16-49.  The thrown usage errors
become Except.error carrying the message; the local constant rest is the
code that follows the playable-extension block (the GIF rule and the URL
assembly), which the source reaches both when the extension is not
mp4/mp3 and when all playable-extension checks pass. -/
def getMediaUrl (o : GetMediaUrlOptions) : Except String String :=
  let format := o.format.getD MediaFormat.default
  let slug := o.slug.getD "media"
  let rest : Except String String :=
    if o.media.attributes.mimetype = "image/gif" ∧ o.ext = some MediaExtension.gif ∧
        format ≠ MediaFormat.source then
      Except.error "[BTF-MEDIA] GIF images must use \x27source\x27 format"
    else
      let fingerprint := o.media.attributes.fingerprints.get format
      let extension := match o.ext with
        | some e => "." ++ e.str
        | none => ""
      let size : Option String := match o.definition with
        | some d => some d.str
        | none => o.width.map (fun w => toString w)
      match size with
      | none =>
          Except.ok (o.domain ++ "/v1/" ++ toString o.media.id ++ "-" ++ format.str ++ "/" ++
            fingerprint ++ "/" ++ slug ++ extension)
      | some z =>
          Except.ok (o.domain ++ "/v1/" ++ toString o.media.id ++ "-" ++ format.str ++ "-" ++ z ++
            "/" ++ fingerprint ++ "/" ++ slug ++ extension)
  if o.ext = some MediaExtension.mp4 ∨ o.ext = some MediaExtension.mp3 then
    if o.media.type = MediaType.video ∨ o.media.type = MediaType.audio then
      if format ≠ MediaFormat.default ∧ format ≠ MediaFormat.source then
        Except.error ("[BTF-MEDIA] Format \x27" ++ format.str ++ "\x27 is not allowed for " ++
          o.media.type.str ++ " with ext ." ++ (o.ext.map MediaExtension.str).getD "" ++
          ". Use \x27default\x27 or \x27source\x27.")
      else if o.definition.isNone then
        Except.error ("[BTF-MEDIA] " ++ o.media.type.str ++
          " requires \x27definition\x27 parameter for extension ." ++
          (o.ext.map MediaExtension.str).getD "")
      else
        rest
    else
      Except.error ("[BTF-MEDIA] Invalid media type (" ++ o.media.type.str ++
        ") for extension ." ++ (o.ext.map MediaExtension.str).getD "")
  else
    rest

/-! ## Related-resource resolution (src/utils.ts, getRelated) -/

/-- A JavaScript resource identifier: ids in types.ts are either numbers
or strings; strict equality never identifies a number with a string. -/
inductive RId where
  | n (v : Int)
  | s (v : String)
deriving DecidableEq, Repr

/-- A resource of the included pool as getRelated inspects it: identity
pair (id, type).  The attributes play no role in the lookup and are kept
as an opaque payload string. -/
structure Resource where
  id : RId
  type : String
  payload : String := ""
deriving DecidableEq, Repr

/-- A related pointer: an (id, type) identity reference. -/
structure Related where
  id : RId
  type : String
deriving DecidableEq, Repr

/-- getRelated of src/utils.ts, lines 51-62: null/undefined pointer gives
undefined, otherwise the first pool entry with matching (id, type). -/
def getRelated (related : Option Related) (included : List Resource) : Option Resource :=
  match related with
  | none => none
  | some r =>
      included.find? (fun resource => decide (resource.id = r.id ∧ resource.type = r.type))

/-! ## Category traversal (src/utils.ts, getCategoryChildrenIds) -/

/-- The category pointer carried by relationships.parentCategory.data. -/
structure ParentPointer where
  id : Nat
deriving DecidableEq, Repr

/-- relationships.parentCategory of a category: data is the pointer to
the parent category or null at a forest root. -/
structure ParentCategoryRel where
  data : Option ParentPointer
deriving DecidableEq, Repr

/-- The relationships of a category that the traversal inspects. -/
structure CategoryRelationships where
  parentCategory : ParentCategoryRel
deriving DecidableEq, Repr

/-- A category as used by getCategoryChildrenIds: id plus the parent
back-pointer. -/
structure Category where
  id : Nat
  relationships : CategoryRelationships
deriving DecidableEq, Repr

/-- cat.relationships.parentCategory.data?.id of the source. -/
def parentIdOf (c : Category) : Option Nat :=
  c.relationships.parentCategory.data.map ParentPointer.id

/-- The inner recursive closure findChildren of getCategoryChildrenIds
(src/utils.ts, lines 67-78), embedded with an explicit fuel parameter.
The mutable accumulator childrenIds is threaded explicitly: each child id
is appended to the accumulator and then recursed into, in the order the
children occur in the category list.  Fuel exhaustion yields none; the
TypeScript recursion terminates on an input exactly when some fuel makes
this embedding return some. -/
def findChildren (categories : List Category) : Nat → Nat → List Nat → Option (List Nat)
  | 0, _, _ => none
  | fuel + 1, parentId, acc =>
      let children := categories.filter (fun cat => parentIdOf cat == some parentId)
      children.foldlM
        (fun a child => findChildren categories fuel child.id (a ++ [child.id])) acc

/-- getCategoryChildrenIds of src/utils.ts, lines 64-80 (fueled): the
accumulator starts as [category.id] and findChildren is run on
category.id. -/
def getCategoryChildrenIds (fuel : Nat) (category : Category) (categories : List Category) :
    Option (List Nat) :=
  findChildren categories fuel category.id [category.id]

/-- Spec-side rendering of the traversal (spec section 4.6): a
compositional depth-first pre-order walk.  At each visited id, the
categories whose parent pointer resolves to that id are visited in list
order, each subtree being c.id followed by its own pre-order walk.  Used
to compare the accumulator-based source traversal against the pre-order
description of the spec. -/
def preorderWalk (categories : List Category) : Nat → Nat → Option (List Nat)
  | 0, _ => none
  | fuel + 1, parentId =>
      let children := categories.filter (fun cat => parentIdOf cat == some parentId)
      (children.mapM (fun c => (preorderWalk categories fuel c.id).map (fun sub => c.id :: sub))).map
        List.flatten

/-- Spec-side rendering of collect (spec section 4.6): the starting
category id first, then the pre-order walk below it. -/
def collectSpec (fuel : Nat) (category : Category) (categories : List Category) :
    Option (List Nat) :=
  (preorderWalk categories fuel category.id).map (fun l => category.id :: l)

/-- Acyclicity of the parent-pointer graph of a category list, stated as
the standard ranking characterization: some rank function strictly
decreases from every parent id to each of its children ids.  For the
finite graphs of this data model this is exactly the absence of a
parent-pointer cycle reachable by the traversal. -/
def Acyclic (categories : List Category) : Prop :=
  ∃ r : Nat → Nat, ∀ c ∈ categories, ∀ pid, parentIdOf c = some pid → r c.id < r pid

/-! ## Query-string encoding (client.ts, the qs.stringify call)

The qs library is an external collaborator: the spec treats serialization
as an assumed capability ("encode a nested mapping into a query string
..., with values percent-encoded").  It is modelled here for flat
string-valued descriptors, which is the fragment the encoding fix-up
claim exercises. -/

/-- Hexadecimal digit, uppercase, as percent-encoding produces. -/
def hexDigit (n : Nat) : Char :=
  if n < 10 then Char.ofNat (48 + n) else Char.ofNat (55 + n)

/-- The characters percent-encoding leaves unescaped (letters, digits,
and - _ . ! ~ * ( ) together with the apostrophe, code point 39). -/
def isUnescapedURI (c : Char) : Bool :=
  c.isAlphanum || c = '-' || c = '_' || c = '.' || c = '!' || c = '~' || c = '*' ||
    c.toNat == 39 || c = '(' || c = ')'

/-- Percent-encoding of one ASCII character. -/
def encodeChar (c : Char) : List Char :=
  if isUnescapedURI c then [c] else ['%', hexDigit (c.toNat / 16), hexDigit (c.toNat % 16)]

/-- Modelled from the spec: percent-encoding of a value string (the
"values percent-encoded" capability of spec section 4.3); ASCII only. -/
def encodeValue (s : String) : String :=
  String.mk (s.data.foldr (fun c acc => encodeChar c ++ acc) [])

/-- Modelled from the spec: the query-string serialization capability of
spec section 4.3 restricted to flat string-valued descriptors, with keys
kept verbatim and values percent-encoded (the encodeValuesOnly mode the
source selects). -/
def qsStringifyFlat (q : List (String × String)) : String :=
  String.intercalate "&" (q.map (fun kv => kv.1 ++ "=" ++ encodeValue kv.2))

/-- JavaScript String.prototype.replace with a string pattern: only the
leftmost occurrence of the pattern is replaced.  An empty pattern matches
at the start. -/
def replaceFirstAux (pat rep : List Char) : List Char → List Char
  | [] => []
  | c :: rest =>
      if pat.isPrefixOf (c :: rest) then rep ++ (c :: rest).drop pat.length
      else c :: replaceFirstAux pat rep rest

/-- JavaScript .replace(pat, rep) on strings (first occurrence only). -/
def jsReplaceFirst (s pat rep : String) : String :=
  String.mk (replaceFirstAux pat.data rep.data s.data)

/-- Replacement of every occurrence of a pattern, scanning left to right
and resuming after each replacement; the fuel is structural and any fuel
of at least the length of the scanned list is enough, since every step
consumes at least one character.  This is the meaning of the claim that
every literal occurrence of the doubly-escaped sequence is replaced. -/
def replaceAllGo (pat rep : List Char) : Nat → List Char → List Char
  | _, [] => []
  | 0, l => l
  | fuel + 1, c :: rest =>
      if pat.isPrefixOf (c :: rest) ∧ 0 < pat.length then
        rep ++ replaceAllGo pat rep fuel ((c :: rest).drop pat.length)
      else c :: replaceAllGo pat rep fuel rest

/-- Replacement of every occurrence, on strings. -/
def replaceAll (s pat rep : String) : String :=
  String.mk (replaceAllGo pat.data rep.data s.data.length s.data)

/-- The query-string construction of Client.get (client.ts): empty when
no query descriptor is given, otherwise a leading question mark followed
by the encoded descriptor with the fix-up
.replace(percent-2523, percent-23) applied — JavaScript replace, hence
first occurrence only. -/
def queryString (query : Option (List (String × String))) : String :=
  match query with
  | none => ""
  | some q => "?" ++ jsReplaceFirst (qsStringifyFlat q) "%2523" "%23"

/-! ## Request dispatch pipeline (client.ts, Client.get) -/

/-- The immutable client configuration fixed at construction (domain
with trailing slash already stripped, optional public key, API
version). -/
structure ClientConfig where
  domain : String
  publicKey : Option String := none
  apiVersion : String := "v1"
deriving DecidableEq, Repr

/-- A JavaScript id value (string | number) as accepted by FetchOptions. -/
inductive JsId where
  | n (v : Int)
  | s (v : String)
deriving DecidableEq, Repr

/-- JavaScript truthiness of the optional id: undefined, 0 and the empty
string are falsy. -/
def jsIdTruthy : Option JsId → Bool
  | none => false
  | some (.n v) => v != 0
  | some (.s v) => v != ""

/-- String interpolation of an id value. -/
def jsIdStr : JsId → String
  | .n v => toString v
  | .s v => v

/-- The FetchOptions fields that determine the request URL.  The
intercept callback is not part of this record: whether one was supplied
is passed to the dispatch embedding separately, since only its
invocation is observable. -/
structure FetchOptions where
  path : Option String := none
  endpoint : Option String := none
  id : Option JsId := none
  query : Option (List (String × String)) := none
deriving DecidableEq, Repr

/-- The URL-resolution step of Client.get (client.ts): the path branch is
taken when path is truthy (present and non-empty); it rejects a path not
starting with the version prefix and otherwise concatenates domain and
path, ignoring endpoint, id and query.  The endpoint branch rejects a
falsy endpoint and otherwise assembles
domain/version/endpoint[/id][?query]. -/
def buildUrl (cfg : ClientConfig) (o : FetchOptions) : Except String String :=
  let endpointBranch : Except String String :=
    match o.endpoint with
    | none => Except.error "[BTF-API] You must provide either a path or an endpoint"
    | some ep =>
        if ep = "" then Except.error "[BTF-API] You must provide either a path or an endpoint"
        else
          let qstr := queryString o.query
          if jsIdTruthy o.id then
            Except.ok (cfg.domain ++ "/" ++ cfg.apiVersion ++ "/" ++ ep ++ "/" ++
              (o.id.map jsIdStr).getD "" ++ qstr)
          else
            Except.ok (cfg.domain ++ "/" ++ cfg.apiVersion ++ "/" ++ ep ++ qstr)
  match o.path with
  | some p =>
      if p = "" then endpointBranch
      else if ¬ p.startsWith ("/" ++ cfg.apiVersion) then
        Except.error ("[BTF-API] Invalid path : must starts with \x27/" ++ cfg.apiVersion ++
          "\x27, got \x27" ++ p ++ "\x27")
      else Except.ok (cfg.domain ++ p)
  | none => endpointBranch

/-- One entry of the structured errors array of a response body. -/
structure ApiErrorEntry where
  status : Int
  title : String
  detail : String
deriving DecidableEq, Repr

/-- A successfully parsed response body, projected onto what
classification inspects: the errors array when the body is an object
carrying one (entries may themselves be falsy, hence Option), plus an
opaque payload standing for the rest of the envelope. -/
structure ParsedBody where
  errors : Option (List (Option ApiErrorEntry)) := none
  payload : String := ""
deriving DecidableEq, Repr

/-- The result of reading the response body: res.json() either yields a
parsed value or rejects on malformed JSON. -/
inductive BodyJson where
  | malformed
  | value (v : ParsedBody)
deriving DecidableEq, Repr

/-- The outcome of the transport call: a network-classified exception
(TypeError or AbortError), any other exception, or a response carrying a
status and a body. -/
inductive TransportOutcome where
  | netFail
  | otherFail
  | ok (status : Nat) (body : BodyJson)
deriving DecidableEq, Repr

/-- The failure kinds a dispatch can surface.  parseRaw is the unwrapped
exception of a failing res.json(); raw is a non-network transport
exception rethrown as-is. -/
inductive DispatchFailure where
  | usage (msg : String)
  | network
  | raw
  | parseRaw
  | redirect (status : Int) (location : String)
  | api (status : Int) (title : String) (detail : String)
deriving DecidableEq, Repr

/-- An observable event of one dispatch: the observation hook being
invoked with the raw response, a failure being raised, or the call
succeeding with the parsed envelope. -/
inductive TraceEvent where
  | intercepted (status : Nat)
  | raised (f : DispatchFailure)
  | succeeded (body : ParsedBody)
deriving DecidableEq, Repr

/-- Whether a trace event is an invocation of the observation hook. -/
def TraceEvent.isIntercepted : TraceEvent → Bool
  | .intercepted _ => true
  | _ => false

/-- res.ok of the fetch Response: status in the inclusive range 200-299. -/
def resOk (status : Nat) : Bool :=
  200 ≤ status && status ≤ 299

/-- The classification block of Client.get (client.ts): a body carrying a
non-empty errors array is classified from its first entry (falsy first
entry: unknown ApiError at the response status; entry status in
[300, 400): RedirectError; otherwise ApiError from the entry); without
such an array, a non-ok response status is an unknown ApiError and an ok
one succeeds with the body. -/
def classify (status : Nat) (body : ParsedBody) : Except DispatchFailure ParsedBody :=
  match body.errors with
  | some (e? :: _) =>
      match e? with
      | none => Except.error (.api status "Unknown error" "")
      | some err =>
          if 300 ≤ err.status ∧ err.status < 400 then
            Except.error (.redirect err.status err.detail)
          else
            Except.error (.api err.status err.title err.detail)
  | some [] =>
      if ¬ resOk status then Except.error (.api status "Unknown error" "")
      else Except.ok body
  | none =>
      if ¬ resOk status then Except.error (.api status "Unknown error" "")
      else Except.ok body

/-- The dispatch pipeline of Client.get (client.ts) as an event trace
over an explicit transport outcome: URL resolution (usage errors are
raised before any I/O), the transport call (TypeError/AbortError wrapped
as NetworkError, other exceptions rethrown raw), the observation hook
invoked with the raw response when supplied, the body read (a malformed
body propagates the raw parse exception), then classification. -/
def dispatchTrace (cfg : ClientConfig) (o : FetchOptions) (interceptSupplied : Bool)
    (outcome : TransportOutcome) : List TraceEvent :=
  match buildUrl cfg o with
  | Except.error m => [TraceEvent.raised (.usage m)]
  | Except.ok _ =>
      match outcome with
      | .netFail => [TraceEvent.raised .network]
      | .otherFail => [TraceEvent.raised .raw]
      | .ok status body =>
          let pre : List TraceEvent :=
            if interceptSupplied then [TraceEvent.intercepted status] else []
          match body with
          | .malformed => pre ++ [TraceEvent.raised .parseRaw]
          | .value v =>
              match classify status v with
              | Except.error f => pre ++ [TraceEvent.raised f]
              | Except.ok env => pre ++ [TraceEvent.succeeded env]

/-! ## Concrete fixtures used by the example clauses and witnesses -/

/-- A category with the given id and parent id. -/
def mkCat (id : Nat) (parent : Option Nat) : Category :=
  { id := id, relationships := { parentCategory := { data := parent.map (fun p => ⟨p⟩) } } }

/-- The category forest of the spec examples: 2, 3, 4 below 1 (3 and 4
below 2), 5 below 1, 7 below 6. -/
def exCats : List Category :=
  [mkCat 1 none, mkCat 2 (some 1), mkCat 3 (some 2), mkCat 4 (some 2),
   mkCat 5 (some 1), mkCat 6 none, mkCat 7 (some 6)]

/-- A two-element parent-pointer cycle: 1 points to 2 and 2 points to 1. -/
def cycCats : List Category :=
  [mkCat 1 (some 2), mkCat 2 (some 1)]

/-- A sample fingerprint mapping. -/
def exFps : Fingerprints :=
  { source := "abc-source", default := "abc-default", thumb := "abc-thumb",
    square := "abc-square", cover := "abc-cover", stories := "abc-stories" }

/-- A sample image resource. -/
def exImage : Media :=
  { id := 123, type := .image, attributes := { mimetype := "image/jpeg", fingerprints := exFps } }

/-- A sample video resource. -/
def exVideo : Media :=
  { id := 456, type := .video, attributes := { mimetype := "video/mp4", fingerprints := exFps } }

/-- A sample client configuration. -/
def exCfg : ClientConfig :=
  { domain := "https://local.test" }

/-- Fetch options supplying neither a path nor an endpoint. -/
def exOptsEmpty : FetchOptions := {}

/-- Fetch options supplying a valid endpoint. -/
def exOptsPosts : FetchOptions := { endpoint := some "posts" }

/-- The options of the C1 witness: image 123, format cover, width 1200. -/
def exC1Opts : GetMediaUrlOptions :=
  { domain := "D", media := exImage, format := some MediaFormat.cover, width := some 1200 }

/-! ## Theorems -/

/-- C1: whenever getMediaUrl does not raise a usage error, the returned
string is domain/v1/id-format[-size]/fingerprint/slug[.ext], where format
defaults to default, slug defaults to media, size is the definition if
present, else the width if present, else absent with its dash omitted,
the extension suffix is omitted when ext is absent, and the fingerprint
is exactly fingerprints[format]. -/
theorem getMediaUrl_ok_shape (o : GetMediaUrlOptions) (s : String)
    (h : getMediaUrl o = Except.ok s) :
    s = o.domain ++ "/v1/" ++ toString o.media.id ++ "-" ++
      (o.format.getD MediaFormat.default).str ++
      (match o.definition, o.width with
        | some d, _ => "-" ++ d.str
        | none, some w => "-" ++ toString w
        | none, none => "") ++
      "/" ++ o.media.attributes.fingerprints.get (o.format.getD MediaFormat.default) ++ "/" ++
      o.slug.getD "media" ++
      (match o.ext with
        | some e => "." ++ e.str
        | none => "") := by
  obtain ⟨dom, med, fmt, wid, slg, ext, dfn⟩ := o
  rcases dfn with _ | d <;> rcases wid with _ | w <;> rcases ext with _ | e <;>
    simp only [getMediaUrl, Option.map] at h ⊢ <;>
    split_ifs at h <;>
    simp_all [String.append_assoc]

/-- C2: getMediaUrl raises a usage error exactly when (1) the extension
is mp4 or mp3 and the media type is neither video nor audio, (2) the
extension is mp4 or mp3, the type is video or audio and the resolved
format is neither default nor source, (3) the extension is mp4 or mp3,
the type is video or audio and no definition is given, or (4) the
mimetype is image/gif, the extension is gif and the resolved format is
not source; otherwise no extension-driven constraint applies. -/
theorem getMediaUrl_error_iff (o : GetMediaUrlOptions) :
    (∃ e, getMediaUrl o = Except.error e) ↔
      ((o.ext = some MediaExtension.mp4 ∨ o.ext = some MediaExtension.mp3) ∧
        ¬ (o.media.type = MediaType.video ∨ o.media.type = MediaType.audio)) ∨
      ((o.ext = some MediaExtension.mp4 ∨ o.ext = some MediaExtension.mp3) ∧
        (o.media.type = MediaType.video ∨ o.media.type = MediaType.audio) ∧
        o.format.getD MediaFormat.default ≠ MediaFormat.default ∧
        o.format.getD MediaFormat.default ≠ MediaFormat.source) ∨
      ((o.ext = some MediaExtension.mp4 ∨ o.ext = some MediaExtension.mp3) ∧
        (o.media.type = MediaType.video ∨ o.media.type = MediaType.audio) ∧
        o.definition = none) ∨
      (o.media.attributes.mimetype = "image/gif" ∧ o.ext = some MediaExtension.gif ∧
        o.format.getD MediaFormat.default ≠ MediaFormat.source) := by
  obtain ⟨dom, med, fmt, wid, slg, ext, dfn⟩ := o
  rcases dfn with _ | d <;> rcases wid with _ | w <;>
    simp only [getMediaUrl, Option.isNone] <;>
    split_ifs <;>
    simp_all

/-- C1 witness: the shape theorem applied at image 123, format cover,
width 1200 on domain D. -/
theorem getMediaUrl_ok_shape_witness :
    "D/v1/123-cover-1200/abc-cover/media" = exC1Opts.domain ++ "/v1/" ++
      toString exC1Opts.media.id ++ "-" ++
      (exC1Opts.format.getD MediaFormat.default).str ++
      (match exC1Opts.definition, exC1Opts.width with
        | some d, _ => "-" ++ d.str
        | none, some w => "-" ++ toString w
        | none, none => "") ++
      "/" ++ exC1Opts.media.attributes.fingerprints.get
        (exC1Opts.format.getD MediaFormat.default) ++ "/" ++
      exC1Opts.slug.getD "media" ++
      (match exC1Opts.ext with
        | some e => "." ++ e.str
        | none => "") :=
  getMediaUrl_ok_shape exC1Opts "D/v1/123-cover-1200/abc-cover/media" (by rfl)

/-- The foldlM accumulator pass over a child list agrees with the
compositional mapM/flatten pass, given the agreement of the recursive
calls on every child. -/
theorem foldlM_eq_mapM_flatten (cats : List Category) (fuel : Nat) (l : List Category)
    (h : ∀ c ∈ l, ∀ a, findChildren cats fuel c.id a
      = (preorderWalk cats fuel c.id).map (fun sub => a ++ sub)) :
    ∀ acc, List.foldlM (fun a child => findChildren cats fuel child.id (a ++ [child.id])) acc l
      = (List.mapM (fun c => (preorderWalk cats fuel c.id).map (fun sub => c.id :: sub)) l).map
          (fun xs => acc ++ xs.flatten) := by
  induction l with
  | nil => intro acc; simp [List.foldlM_nil, List.mapM_nil, List.mapM.loop]
  | cons c rest ih =>
      intro acc
      rw [List.foldlM_cons, List.mapM_cons, h c (by simp)]
      simp only [ih (fun c hc a => h c (List.mem_cons_of_mem _ hc) a)]
      cases hw : preorderWalk cats fuel c.id with
      | none => simp [Option.bind]
      | some sub1 =>
          cases hm : List.mapM
              (fun c => (preorderWalk cats fuel c.id).map (fun sub => c.id :: sub)) rest with
          | none => simp [Option.bind, hm]
          | some xs => simp [Option.bind, hm, List.append_assoc]

/-- The accumulator-threading source traversal equals the compositional
pre-order walk of the spec, with the accumulator prepended. -/
theorem findChildren_eq_preorderWalk (cats : List Category) :
    ∀ fuel pid acc, findChildren cats fuel pid acc
      = (preorderWalk cats fuel pid).map (fun sub => acc ++ sub) := by
  intro fuel
  induction fuel with
  | zero => intro pid acc; rfl
  | succ f ih =>
      intro pid acc
      rw [findChildren, preorderWalk,
        foldlM_eq_mapM_flatten cats f _ (fun c _ a => ih c.id a) acc]
      cases hm : List.mapM
          (fun c => (preorderWalk cats f c.id).map (fun sub => c.id :: sub))
          (cats.filter (fun cat => parentIdOf cat == some pid)) with
      | none => simp [hm]
      | some xs => simp [hm]

/-- C7: collect returns the starting id first (a singleton when nothing
in the list points to it) followed by the depth-first pre-order
traversal of the children, children being scanned in list order; on the
example forest, collect from category 2 gives [2, 3, 4], collect from
category 1 gives [1, 2, 3, 4, 5], and collect from the absent category
999 gives [999]. -/
theorem getCategoryChildrenIds_preorder :
    (∀ fuel (c : Category) (cats : List Category),
      getCategoryChildrenIds fuel c cats = collectSpec fuel c cats)
    ∧ getCategoryChildrenIds 10 (mkCat 2 (some 1)) exCats = some [2, 3, 4]
    ∧ getCategoryChildrenIds 10 (mkCat 1 none) exCats = some [1, 2, 3, 4, 5]
    ∧ getCategoryChildrenIds 10 (mkCat 999 none) exCats = some [999] := by
  refine ⟨?_, by decide, by decide, by decide⟩
  intro fuel c cats
  rw [getCategoryChildrenIds, collectSpec, findChildren_eq_preorderWalk]
  cases hm : preorderWalk cats fuel c.id with
  | none => simp [hm]
  | some xs => simp [hm]

/-- A foldlM pass over a child list succeeds whenever every recursive
call on a child succeeds for every accumulator. -/
theorem foldlM_findChildren_isSome (cats : List Category) (fuel : Nat) :
    ∀ (l : List Category),
      (∀ c ∈ l, ∀ a, ∃ o, findChildren cats fuel c.id a = some o) →
      ∀ acc, ∃ out,
        List.foldlM (fun a child => findChildren cats fuel child.id (a ++ [child.id])) acc l
          = some out := by
  intro l
  induction l with
  | nil => intro _ acc; exact ⟨acc, by simp [List.foldlM_nil]⟩
  | cons c rest ih =>
      intro h acc
      obtain ⟨o, ho⟩ := h c (by simp) (acc ++ [c.id])
      obtain ⟨out, hout⟩ := ih (fun c hc a => h c (List.mem_cons_of_mem _ hc) a) o
      exact ⟨out, by rw [List.foldlM_cons, ho]; exact hout⟩

/-- Under a rank certificate for the parent-pointer graph, findChildren
succeeds as soon as the fuel exceeds the rank of the visited id. -/
theorem findChildren_terminates (cats : List Category) (r : Nat → Nat)
    (hr : ∀ c ∈ cats, ∀ pid, parentIdOf c = some pid → r c.id < r pid) :
    ∀ fuel pid acc, r pid < fuel → ∃ out, findChildren cats fuel pid acc = some out := by
  intro fuel
  induction fuel with
  | zero => intro pid acc h; exact absurd h (Nat.not_lt_zero _)
  | succ f ih =>
      intro pid acc h
      have hch : ∀ c ∈ cats.filter (fun cat => parentIdOf cat == some pid), ∀ a,
          ∃ o, findChildren cats f c.id a = some o := by
        intro c hc a
        have hmem := (List.mem_filter.mp hc).1
        have hp : parentIdOf c = some pid := by
          have := (List.mem_filter.mp hc).2
          simpa using this
        have := hr c hmem pid hp
        exact ih c.id a (by omega)
      obtain ⟨out, hout⟩ := foldlM_findChildren_isSome cats f _ hch acc
      exact ⟨out, by rw [findChildren]; exact hout⟩

/-- On the two-element cycle, findChildren exhausts any fuel from either
entry point. -/
theorem findChildren_cycle_none :
    ∀ fuel acc, findChildren cycCats fuel 1 acc = none ∧ findChildren cycCats fuel 2 acc = none := by
  intro fuel
  induction fuel with
  | zero => intro acc; exact ⟨rfl, rfl⟩
  | succ f ih =>
      intro acc
      have hfil1 : cycCats.filter (fun cat => parentIdOf cat == some 1)
          = [mkCat 2 (some 1)] := by decide
      have hfil2 : cycCats.filter (fun cat => parentIdOf cat == some 2)
          = [mkCat 1 (some 2)] := by decide
      constructor
      · rw [findChildren, hfil1, List.foldlM_cons]
        simp [(ih (acc ++ [2])).2, Option.bind, mkCat]
      · rw [findChildren, hfil2, List.foldlM_cons]
        simp [(ih (acc ++ [1])).1, Option.bind, mkCat]

/-- C8: the traversal terminates on every category list whose
parent-pointer graph is acyclic (some fuel makes the fueled embedding
succeed), while on a parent-pointer cycle no amount of fuel suffices:
the recursion does not terminate. -/
theorem getCategoryChildrenIds_termination :
    (∀ (cats : List Category), Acyclic cats →
      ∀ c : Category, ∃ fuel out, getCategoryChildrenIds fuel c cats = some out)
    ∧ (∀ fuel, getCategoryChildrenIds fuel (mkCat 1 (some 2)) cycCats = none) := by
  constructor
  · rintro cats ⟨r, hr⟩ c
    obtain ⟨out, hout⟩ :=
      findChildren_terminates cats r hr (r c.id + 1) c.id [c.id] (Nat.lt_succ_self _)
    exact ⟨r c.id + 1, out, hout⟩
  · intro fuel
    exact (findChildren_cycle_none fuel [1]).1

/-- C8 witness: the termination half applied to the example forest,
whose parent-pointer graph is certified acyclic by the rank
10 - id. -/
theorem getCategoryChildrenIds_termination_witness :
    ∃ fuel out, getCategoryChildrenIds fuel (mkCat 1 none) exCats = some out :=
  getCategoryChildrenIds_termination.1 exCats
    ⟨fun i => 10 - i, by
      intro c hc pid hp
      simp only [exCats] at hc
      fin_cases hc <;> simp [parentIdOf, mkCat] at hp ⊢ <;> omega⟩
    (mkCat 1 none)

/-- C9: resolution of a related pointer returns absent on a null pointer;
on a present pointer it returns absent exactly when no pool resource
matches the (id, type) pair, and any resource it returns is a matching
one occurring in the pool with no earlier matching resource (the first
match of the linear scan); the function is total, so it never raises. -/
theorem getRelated_spec :
    (∀ pool, getRelated none pool = none)
    ∧ (∀ (p : Related) (pool : List Resource),
        getRelated (some p) pool = none ↔
          ∀ r ∈ pool, ¬ (r.id = p.id ∧ r.type = p.type))
    ∧ (∀ (p : Related) (pool : List Resource) (r : Resource),
        getRelated (some p) pool = some r →
          (r.id = p.id ∧ r.type = p.type) ∧
          ∃ pre post, pool = pre ++ r :: post ∧
            ∀ x ∈ pre, ¬ (x.id = p.id ∧ x.type = p.type)) := by
  refine ⟨fun pool => rfl, ?_, ?_⟩
  · intro p pool
    simp [getRelated, List.find?_eq_none]
  · intro p pool
    induction pool with
    | nil => intro r h; exact absurd h (by simp [getRelated])
    | cons a rest ih =>
        intro r h
        rw [getRelated, List.find?_cons] at h
        by_cases ha : a.id = p.id ∧ a.type = p.type
        · rw [decide_eq_true ha] at h
          simp only [Option.some.injEq] at h
          subst h
          exact ⟨ha, [], rest, rfl, by simp⟩
        · rw [decide_eq_false ha] at h
          obtain ⟨hm, pre, post, hsplit, hpre⟩ := ih r h
          refine ⟨hm, a :: pre, post, by rw [hsplit]; rfl, ?_⟩
          intro x hx
          rcases List.mem_cons.mp hx with hx | hx
          · subst hx; exact ha
          · exact hpre x hx

/-- C9 witness: the first-match clause applied to a singleton pool
containing the pointed-to resource. -/
theorem getRelated_spec_witness :
    ((⟨RId.n 1, "post", "x"⟩ : Resource).id = (⟨RId.n 1, "post"⟩ : Related).id ∧
      (⟨RId.n 1, "post", "x"⟩ : Resource).type = (⟨RId.n 1, "post"⟩ : Related).type) ∧
    ∃ pre post, [(⟨RId.n 1, "post", "x"⟩ : Resource)]
        = pre ++ (⟨RId.n 1, "post", "x"⟩ : Resource) :: post ∧
      ∀ x ∈ pre, ¬ (x.id = (⟨RId.n 1, "post"⟩ : Related).id ∧
        x.type = (⟨RId.n 1, "post"⟩ : Related).type) :=
  getRelated_spec.2.2 ⟨RId.n 1, "post"⟩ [⟨RId.n 1, "post", "x"⟩] ⟨RId.n 1, "post", "x"⟩ (by rfl)

/-- C3: when the parsed body carries a non-empty errors array whose
first entry is a proper entry e, classification fails from e alone,
whatever the transport status: a redirect carrying (e.status, e.detail)
when e.status lies in [300, 400), and an API failure carrying
(e.status, e.title, e.detail) otherwise. -/
theorem classify_body_errors_first (status : Nat) (body : ParsedBody) (e : ApiErrorEntry)
    (rest : List (Option ApiErrorEntry)) (h : body.errors = some (some e :: rest)) :
    classify status body =
      Except.error (if 300 ≤ e.status ∧ e.status < 400 then
        DispatchFailure.redirect e.status e.detail
      else DispatchFailure.api e.status e.title e.detail) := by
  obtain ⟨errs, payload⟩ := body
  simp only at h
  subst h
  simp only [classify, apply_ite Except.error]

/-- C3 witness: a body whose first error entry has status 301 is
classified as a redirect even under transport status 200. -/
theorem classify_body_errors_first_witness :
    classify 200 ⟨some [some ⟨301, "Moved", "/new"⟩], ""⟩ =
      Except.error (if 300 ≤ (301 : Int) ∧ (301 : Int) < 400 then
        DispatchFailure.redirect 301 "/new"
      else DispatchFailure.api 301 "Moved" "/new") :=
  classify_body_errors_first 200 ⟨some [some ⟨301, "Moved", "/new"⟩], ""⟩ ⟨301, "Moved", "/new"⟩
    [] rfl

/-- C4 counterexample: a dispatch to a valid endpoint whose response has
status 500 and a malformed body raises the raw parse exception; no API
failure carrying the response status appears in the trace, so the claim
that a parse failure is classified as a generic API failure with the
response status is false on this input. -/
theorem dispatch_parse_counterexample :
    dispatchTrace exCfg exOptsPosts false (TransportOutcome.ok 500 BodyJson.malformed)
      = [TraceEvent.raised DispatchFailure.parseRaw]
    ∧ TraceEvent.raised (DispatchFailure.api 500 "Unknown error" "")
        ∉ dispatchTrace exCfg exOptsPosts false (TransportOutcome.ok 500 BodyJson.malformed) :=
  ⟨by decide, by decide⟩

/-- C4 amended: whenever URL resolution succeeds and the transport
yields a response whose body is not valid JSON, the dispatch raises the
raw parse exception unwrapped (after the observation hook when one is
supplied); it is not classified as an API failure. -/
theorem dispatch_parse_raw (cfg : ClientConfig) (o : FetchOptions) (u : String)
    (h : buildUrl cfg o = Except.ok u) (status : Nat) (i : Bool) :
    dispatchTrace cfg o i (TransportOutcome.ok status BodyJson.malformed)
      = (if i then [TraceEvent.intercepted status] else [])
        ++ [TraceEvent.raised DispatchFailure.parseRaw] := by
  simp [dispatchTrace, h]

/-- C4 amended witness: the raw-propagation theorem applied to the posts
endpoint at status 500 without an observation hook. -/
theorem dispatch_parse_raw_witness :
    dispatchTrace exCfg exOptsPosts false (TransportOutcome.ok 500 BodyJson.malformed)
      = (if false then [TraceEvent.intercepted 500] else [])
        ++ [TraceEvent.raised DispatchFailure.parseRaw] :=
  dispatch_parse_raw exCfg exOptsPosts "https://local.test/v1/posts" (by rfl) 500 false

/-- C5 counterexample: a failing dispatch with an observation callback
supplied but neither path nor endpoint raises the usage error with the
callback never invoked, and a transport failure on a valid endpoint is
raised with the callback never invoked either; so the claim that the
callback runs before every failure kind on every failing call is false
on these inputs. -/
theorem dispatch_intercept_counterexample :
    dispatchTrace exCfg exOptsEmpty true TransportOutcome.netFail
      = [TraceEvent.raised
          (DispatchFailure.usage "[BTF-API] You must provide either a path or an endpoint")]
    ∧ (dispatchTrace exCfg exOptsEmpty true TransportOutcome.netFail).countP
        TraceEvent.isIntercepted = 0
    ∧ dispatchTrace exCfg exOptsPosts true TransportOutcome.netFail
      = [TraceEvent.raised DispatchFailure.network]
    ∧ (dispatchTrace exCfg exOptsPosts true TransportOutcome.netFail).countP
        TraceEvent.isIntercepted = 0 :=
  ⟨by decide, by decide, by decide, by decide⟩

/-- C5 amended: when an observation callback is supplied and the
transport yields a raw response, the callback is invoked with that
response before anything else the dispatch does — in particular before
any redirect, API failure or parse failure is raised; on a usage error
and on a transport failure no response exists and the dispatch raises
without invoking the callback. -/
theorem dispatch_intercept_before_classification :
    (∀ (cfg : ClientConfig) (o : FetchOptions) (u : String) (status : Nat) (body : BodyJson),
      buildUrl cfg o = Except.ok u →
        dispatchTrace cfg o true (TransportOutcome.ok status body)
          = TraceEvent.intercepted status ::
              dispatchTrace cfg o false (TransportOutcome.ok status body))
    ∧ (∀ (cfg : ClientConfig) (o : FetchOptions) (m : String) (outcome : TransportOutcome),
      buildUrl cfg o = Except.error m →
        dispatchTrace cfg o true outcome = [TraceEvent.raised (DispatchFailure.usage m)])
    ∧ (∀ (cfg : ClientConfig) (o : FetchOptions) (u : String),
      buildUrl cfg o = Except.ok u →
        dispatchTrace cfg o true TransportOutcome.netFail
            = [TraceEvent.raised DispatchFailure.network]
        ∧ dispatchTrace cfg o true TransportOutcome.otherFail
            = [TraceEvent.raised DispatchFailure.raw]) := by
  refine ⟨?_, ?_, ?_⟩
  · intro cfg o u status body h
    cases body with
    | malformed => simp [dispatchTrace, h]
    | value v =>
        cases hc : classify status v with
        | error f => simp [dispatchTrace, h, hc]
        | ok env => simp [dispatchTrace, h, hc]
  · intro cfg o m outcome h
    simp [dispatchTrace, h]
  · intro cfg o u h
    exact ⟨by simp [dispatchTrace, h], by simp [dispatchTrace, h]⟩

/-- C5 amended witness: the hook-first clause applied to the posts
endpoint with a body carrying a 404 error entry. -/
theorem dispatch_intercept_before_classification_witness :
    dispatchTrace exCfg exOptsPosts true
        (TransportOutcome.ok 404 (BodyJson.value ⟨some [some ⟨404, "Not Found", "nf"⟩], ""⟩))
      = TraceEvent.intercepted 404 ::
          dispatchTrace exCfg exOptsPosts false
            (TransportOutcome.ok 404 (BodyJson.value ⟨some [some ⟨404, "Not Found", "nf"⟩], ""⟩)) :=
  dispatch_intercept_before_classification.1 exCfg exOptsPosts "https://local.test/v1/posts" 404
    (BodyJson.value ⟨some [some ⟨404, "Not Found", "nf"⟩], ""⟩) (by rfl)

/-- When the pattern does not occur, the first-occurrence replacement is
the identity. -/
theorem replaceFirstAux_no_occurrence (pat rep : List Char) :
    ∀ l, (∀ a b, l ≠ a ++ pat ++ b) → replaceFirstAux pat rep l = l := by
  intro l
  induction l with
  | nil => intro _; rfl
  | cons c rest ih =>
      intro h
      rw [replaceFirstAux, if_neg, ih]
      · intro a b hab
        exact h (c :: a) b (by rw [hab]; rfl)
      · intro hpre
        rw [List.isPrefixOf_iff_prefix] at hpre
        obtain ⟨t, ht⟩ := hpre
        exact h [] t (by simp [← ht])

/-- The first-occurrence replacement rewrites exactly the leftmost
occurrence of the pattern, leaving everything after it (later
occurrences included) unchanged. -/
theorem replaceFirstAux_leftmost (pat rep : List Char) (hne : pat ≠ []) :
    ∀ l a b, l = a ++ pat ++ b →
      (∀ a' b', l = a' ++ pat ++ b' → a.length ≤ a'.length) →
      replaceFirstAux pat rep l = a ++ rep ++ b := by
  intro l
  induction l with
  | nil =>
      intro a b h _
      have ha : a = [] := by
        cases a with
        | nil => rfl
        | cons x xs => exact absurd h.symm (by simp)
      subst ha
      have hb : pat ++ b = [] := by simpa using h.symm
      exact absurd (List.append_eq_nil.mp hb).1 hne
  | cons c rest ih =>
      intro a b h hmin
      rw [replaceFirstAux]
      by_cases hpre : pat.isPrefixOf (c :: rest) = true
      · rw [if_pos hpre]
        rw [List.isPrefixOf_iff_prefix] at hpre
        obtain ⟨t, ht⟩ := hpre
        have h0 : a.length ≤ 0 := hmin [] t (by simp [← ht])
        have ha : a = [] := List.eq_nil_of_length_eq_zero (Nat.le_zero.mp h0)
        subst ha
        simp only [List.nil_append] at h
        rw [h, List.drop_left]
        simp
      · rw [if_neg hpre]
        cases a with
        | nil =>
            have hb : pat <+: c :: rest := ⟨b, by simpa using h.symm⟩
            exact absurd (List.isPrefixOf_iff_prefix.mpr hb) hpre
        | cons x a1 =>
            rw [List.cons_append, List.cons_append] at h
            injection h with h1 h2
            subst h1
            rw [ih a1 b h2 ?_]
            · simp
            · intro a2 b2 h3
              have := hmin (c :: a2) b2 (by rw [List.cons_append, List.cons_append, h3])
              simpa using this

/-- C6 counterexample: the descriptor mapping key a to the value hash
hash (each hash encoding to the doubly-escaped sequence) produces the
query string with only the first doubly-escaped sequence replaced: the
second survives, so the claim that every occurrence is replaced is false
on this input. -/
theorem queryString_counterexample :
    queryString (some [("a", "%23%23")]) = "?a=%23%2523"
    ∧ queryString (some [("a", "%23%23")])
        ≠ "?" ++ replaceAll (qsStringifyFlat [("a", "%23%23")]) "%2523" "%23" :=
  ⟨by decide, by decide⟩

/-- C6 amended: the query string produced by query encoding has the
first (leftmost) occurrence of the doubly-escaped sequence for the hash
character replaced with the singly-escaped form, later occurrences being
left unchanged, and is the encoding unchanged when the sequence does not
occur; when no query descriptor is given, the query string is empty. -/
theorem queryString_first_occurrence :
    queryString none = ""
    ∧ (∀ (q : List (String × String)) (a b : List Char),
        (qsStringifyFlat q).data = a ++ "%2523".data ++ b →
        (∀ a' b', (qsStringifyFlat q).data = a' ++ "%2523".data ++ b' → a.length ≤ a'.length) →
        (queryString (some q)).data = "?".data ++ a ++ "%23".data ++ b)
    ∧ (∀ q : List (String × String),
        (∀ a b, (qsStringifyFlat q).data ≠ a ++ "%2523".data ++ b) →
        queryString (some q) = "?" ++ qsStringifyFlat q) := by
  refine ⟨rfl, ?_, ?_⟩
  · intro q a b h hmin
    show (("?" : String) ++ jsReplaceFirst (qsStringifyFlat q) "%2523" "%23").data = _
    rw [String.data_append]
    rw [show (jsReplaceFirst (qsStringifyFlat q) "%2523" "%23").data
      = replaceFirstAux "%2523".data "%23".data (qsStringifyFlat q).data from rfl]
    rw [replaceFirstAux_leftmost "%2523".data "%23".data (by decide) _ a b h hmin]
    simp
  · intro q h
    show ("?" : String) ++ jsReplaceFirst (qsStringifyFlat q) "%2523" "%23"
      = ("?" : String) ++ qsStringifyFlat q
    have hid : replaceFirstAux "%2523".data "%23".data (qsStringifyFlat q).data
        = (qsStringifyFlat q).data :=
      replaceFirstAux_no_occurrence "%2523".data "%23".data (qsStringifyFlat q).data h
    cases hq : qsStringifyFlat q with
    | mk l =>
        rw [hq] at hid
        rw [show jsReplaceFirst (String.mk l) "%2523" "%23"
          = String.mk (replaceFirstAux "%2523".data "%23".data l) from rfl, hid]

/-- C6 amended witness: a descriptor whose encoding contains no
doubly-escaped sequence passes through the fix-up unchanged. -/
theorem queryString_first_occurrence_witness :
    queryString (some [("a", "b")]) = "?" ++ qsStringifyFlat [("a", "b")] :=
  queryString_first_occurrence.2.2 [("a", "b")] (by
    intro a b h
    have hl := congrArg List.length h
    have e1 : (qsStringifyFlat [("a", "b")]).data.length = 3 := by decide
    have e2 : ("%2523".data).length = 5 := by decide
    rw [e1] at hl
    simp only [List.length_append, e2] at hl
    omega)

/-- C10: when a non-empty path is supplied, URL resolution behaves as if
only the path had been supplied — any endpoint, id and query are
ignored — and, when the path carries the version prefix, the resulting
URL is exactly the domain concatenated with the path, with no query
string appended. -/
theorem buildUrl_path_wins (cfg : ClientConfig) (o : FetchOptions) (p : String)
    (hp : o.path = some p) (hne : p ≠ "") :
    buildUrl cfg o = buildUrl cfg { path := some p }
    ∧ (p.startsWith ("/" ++ cfg.apiVersion) = true →
        buildUrl cfg o = Except.ok (cfg.domain ++ p)) := by
  constructor
  · simp [buildUrl, hp, hne]
  · intro hs
    simp [buildUrl, hp, hne, hs]

/-- C10 witness: a call supplying both the path /v1/x and an endpoint
with id and query resolves from the path alone. -/
theorem buildUrl_path_wins_witness :
    buildUrl exCfg
        { path := some "/v1/x", endpoint := some "posts", id := some (JsId.n 7),
          query := some [("k", "v")] }
      = buildUrl exCfg { path := some "/v1/x" }
    ∧ (("/v1/x").startsWith ("/" ++ exCfg.apiVersion) = true →
        buildUrl exCfg
            { path := some "/v1/x", endpoint := some "posts", id := some (JsId.n 7),
              query := some [("k", "v")] }
          = Except.ok (exCfg.domain ++ "/v1/x")) :=
  buildUrl_path_wins exCfg
    { path := some "/v1/x", endpoint := some "posts", id := some (JsId.n 7),
      query := some [("k", "v")] }
    "/v1/x" rfl (by decide)

end Butterfly
